import Mathlib

/-!
Shallow embedding of the DirectedEdge record of a routing-graph tile:
the bit-field packing primitive, the per-field setters with their
clamp / mask / reject / fail write policies, the quantized slope codec,
and the structured export projection.

Machine integers are modelled as `Nat` with explicit reduction modulo
`2 ^ 32` where 32-bit overflow matters, and reduction modulo `2 ^ w`
where a value is stored into a `w`-bit packed field.
-/

/-- Unsigned 32-bit wrap-around of the C++ `uint32_t` arithmetic. -/
def u32 (x : Nat) : Nat := x % 4294967296

/-- Truncation performed when a value is assigned into a `w`-bit bit field. -/
def trunc (w x : Nat) : Nat := x % 2 ^ w

/-- Modelled from the spec: full access bitmask `kAllAccess` ("all modes
allowed").  The bounds constants live in a header that is not part of this
unit; per the spec each packed field is sized to exactly hold its maximum,
so the 12-bit access fields have maximum `2 ^ 12 - 1`. -/
def kAllAccess : Nat := 4095

/-- Modelled from the spec: per-mode access bit (car). -/
def kAutoAccess : Nat := 1

/-- Modelled from the spec: per-mode access bit (pedestrian). -/
def kPedestrianAccess : Nat := 2

/-- Modelled from the spec: per-mode access bit (bicycle). -/
def kBicycleAccess : Nat := 4

/-- Modelled from the spec: per-mode access bit (truck). -/
def kTruckAccess : Nat := 8

/-- Modelled from the spec: per-mode access bit (emergency). -/
def kEmergencyAccess : Nat := 16

/-- Modelled from the spec: per-mode access bit (taxi). -/
def kTaxiAccess : Nat := 32

/-- Modelled from the spec: per-mode access bit (bus). -/
def kBusAccess : Nat := 64

/-- Modelled from the spec: per-mode access bit (HOV). -/
def kHOVAccess : Nat := 128

/-- Modelled from the spec: per-mode access bit (wheelchair). -/
def kWheelchairAccess : Nat := 256

/-- Modelled from the spec: national bicycle-network bit. -/
def kNcn : Nat := 1

/-- Modelled from the spec: regional bicycle-network bit. -/
def kRcn : Nat := 2

/-- Modelled from the spec: local bicycle-network bit. -/
def kLcn : Nat := 4

/-- Modelled from the spec: mountain bicycle-network bit. -/
def kMcn : Nat := 8

/-- Modelled from the spec: maximum edge-info storage offset
(a 25-bit pointer-like offset, `2 ^ 25 - 1`). -/
def kMaxEdgeInfoOffset : Nat := 33554431

/-- Modelled from the spec: maximum edge length in meters (24-bit field). -/
def kMaxEdgeLength : Nat := 16777215

/-- Modelled from the spec: maximum weighted-grade factor (spec range 0-15). -/
def kMaxGradeFactor : Nat := 15

/-- Modelled from the spec: maximum curvature factor (spec range 0-15). -/
def kMaxCurvatureFactor : Nat := 15

/-- Modelled from the spec: maximum lane count (4-bit field). -/
def kMaxLaneCount : Nat := 15

/-- Modelled from the spec: maximum bicycle-network mask (4 network bits). -/
def kMaxBicycleNetwork : Nat := 15

/-- Modelled from the spec: number of edges covered by the simple
turn-restriction mask (an 8-bit mask, one bit per edge). -/
def kMaxTurnRestrictionEdges : Nat := 8

/-- Modelled from the spec: maximum speed in KPH (8-bit field). -/
def kMaxSpeed : Nat := 255

/-- Modelled from the spec: maximum relative density (4-bit field). -/
def kMaxDensity : Nat := 15

/-- Modelled from the spec: maximum local edge index stored per node
(7-bit field). -/
def kMaxEdgesPerNode : Nat := 127

/-- Modelled from the spec: maximum local index addressing the packed
per-inbound-edge arrays.  The source stores per-index data "for the first
8 edges", so indices 0..7 are valid. -/
def kMaxLocalEdgeIndex : Nat := 7

/-- Modelled from the spec: maximum number of shortcut edges from a node
(one-hot masks of 7 bits, 1-based slots 1..7). -/
def kMaxShortcutsFromNode : Nat := 7

/-- Modelled from the spec: maximum stop-impact code (3-bit slots). -/
def kMaxStopImpact : Nat := 7

/--
Get the updated bit field: returns `dst` with the `len`-bit element at
slot `pos` replaced using `src`, in the C++ `uint32_t` arithmetic of the
source (the slot-times-width product wraps modulo `2 ^ 32`).  A shift
count of 32 or more - `1 << len` with `len` at least 32, or `<< shift`
with `shift` at least 32 - is undefined behavior in the source; it is
modelled as the guarded error value `none`, never as defined arithmetic.
Note the source does not mask `src` to its low `len` bits.
-/
def OverwriteBits (dst src pos len : Nat) : Option Nat :=
  let l := u32 len
  let shift := u32 (u32 pos * l)
  if 32 ≤ l ∨ 32 ≤ shift then
    none
  else
    let mask := u32 ((u32 (1 <<< l) - 1) <<< shift)
    some ((u32 dst &&& (mask ^^^ 0xFFFFFFFF)) ||| u32 (u32 src <<< shift))

/-- Read of the 24-bit `stopimpact_.s.stopimpact` member of the overlapping
union slot (low 24 bits of the raw 32-bit storage). -/
def s_stopimpact (u : Nat) : Nat := u &&& 0xFFFFFF

/-- Read of the 8-bit `stopimpact_.s.edge_to_right` member of the
overlapping union slot (bits 24-31 of the raw 32-bit storage). -/
def s_edge_to_right (u : Nat) : Nat := (u >>> 24) &&& 0xFF

/-- Assignment to the 24-bit `stopimpact_.s.stopimpact` member: the value is
truncated to 24 bits, the other union bits are preserved. -/
def write_s_stopimpact (u x : Nat) : Nat :=
  (u &&& 0xFF000000) ||| (x &&& 0xFFFFFF)

/-- Assignment to the 8-bit `stopimpact_.s.edge_to_right` member: the value
is truncated to 8 bits and placed at bits 24-31, the low bits preserved. -/
def write_s_edge_to_right (u x : Nat) : Nat :=
  (u &&& 0xFFFFFF) ||| ((x &&& 0xFF) <<< 24)

/--
The directed edge record.  One field per packed attribute of the source
record; `Bool` for the 1-bit flags, `Nat` for the numeric fields.  The
overlapping union (`stopimpact_`) is a single raw 32-bit slot read and
written through the member views above.  Field widths follow the spec rule
that each packed field is sized to exactly hold its declared maximum.
-/
structure DirectedEdge where
  endnode_ : Nat
  edgeinfo_offset_ : Nat
  access_restriction_ : Nat
  exitsign_ : Bool
  length_ : Nat
  weighted_grade_ : Nat
  curvature_ : Nat
  drive_on_right_ : Bool
  deadend_ : Bool
  toll_ : Bool
  seasonal_ : Bool
  dest_only_ : Bool
  tunnel_ : Bool
  bridge_ : Bool
  roundabout_ : Bool
  unreachable_ : Bool
  traffic_signal_ : Bool
  forward_ : Bool
  not_thru_ : Bool
  opp_index_ : Nat
  cycle_lane_ : Nat
  bike_network_ : Nat
  truck_route_ : Bool
  lanecount_ : Nat
  restrictions_ : Nat
  use_ : Nat
  speed_type_ : Nat
  ctry_crossing_ : Bool
  forwardaccess_ : Nat
  reverseaccess_ : Nat
  speed_ : Nat
  speed_limit_ : Nat
  truck_speed_ : Nat
  classification_ : Nat
  surface_ : Nat
  link_ : Bool
  internal_ : Bool
  start_restriction_ : Nat
  end_restriction_ : Nat
  part_of_complex_restriction_ : Bool
  max_up_slope_ : Nat
  max_down_slope_ : Nat
  density_ : Nat
  named_ : Bool
  sidewalk_left_ : Bool
  sidewalk_right_ : Bool
  turntype_ : Nat
  edge_to_left_ : Nat
  stopimpact_ : Nat
  localedgeidx_ : Nat
  opp_local_idx_ : Nat
  shortcut_ : Nat
  superseded_ : Nat
  is_shortcut_ : Bool
  leaves_tile_ : Bool

/-- Default constructor: `memset` to zero, then `weighted_grade_ = 6`. -/
def DirectedEdge.default : DirectedEdge where
  endnode_ := 0
  edgeinfo_offset_ := 0
  access_restriction_ := 0
  exitsign_ := false
  length_ := 0
  weighted_grade_ := 6
  curvature_ := 0
  drive_on_right_ := false
  deadend_ := false
  toll_ := false
  seasonal_ := false
  dest_only_ := false
  tunnel_ := false
  bridge_ := false
  roundabout_ := false
  unreachable_ := false
  traffic_signal_ := false
  forward_ := false
  not_thru_ := false
  opp_index_ := 0
  cycle_lane_ := 0
  bike_network_ := 0
  truck_route_ := false
  lanecount_ := 0
  restrictions_ := 0
  use_ := 0
  speed_type_ := 0
  ctry_crossing_ := false
  forwardaccess_ := 0
  reverseaccess_ := 0
  speed_ := 0
  speed_limit_ := 0
  truck_speed_ := 0
  classification_ := 0
  surface_ := 0
  link_ := false
  internal_ := false
  start_restriction_ := 0
  end_restriction_ := 0
  part_of_complex_restriction_ := false
  max_up_slope_ := 0
  max_down_slope_ := 0
  density_ := 0
  named_ := false
  sidewalk_left_ := false
  sidewalk_right_ := false
  turntype_ := 0
  edge_to_left_ := 0
  stopimpact_ := 0
  localedgeidx_ := 0
  opp_local_idx_ := 0
  shortcut_ := 0
  superseded_ := 0
  is_shortcut_ := false
  leaves_tile_ := false

/-- Sets the end node of this directed edge (the opaque identifier value). -/
def DirectedEdge.set_endnode (e : DirectedEdge) (endnode : Nat) : DirectedEdge :=
  { e with endnode_ := endnode }

/-- Set the offset to the common edge data.  An offset beyond the maximum is
a catastrophic error: the source throws; modelled as `none`, and then no
updated record is produced. -/
def DirectedEdge.set_edgeinfo_offset (e : DirectedEdge) (offset : Nat) :
    Option DirectedEdge :=
  if offset > kMaxEdgeInfoOffset then
    none
  else
    some { e with edgeinfo_offset_ := trunc 25 offset }

/-- Set the modes which have access restrictions on this edge. -/
def DirectedEdge.set_access_restriction (e : DirectedEdge) (access : Nat) :
    DirectedEdge :=
  { e with access_restriction_ := trunc 12 access }

/-- Sets the exit flag. -/
def DirectedEdge.set_exitsign (e : DirectedEdge) (exit : Bool) : DirectedEdge :=
  { e with exitsign_ := exit }

/-- Sets the length of the edge in meters (clamped to the maximum). -/
def DirectedEdge.set_length (e : DirectedEdge) (length : Nat) : DirectedEdge :=
  if length > kMaxEdgeLength then
    { e with length_ := kMaxEdgeLength }
  else
    { e with length_ := trunc 24 length }

/-- Sets the weighted-grade factor (0-15); an out-of-range factor stores the
default 6, not the maximum. -/
def DirectedEdge.set_weighted_grade (e : DirectedEdge) (factor : Nat) :
    DirectedEdge :=
  if factor > kMaxGradeFactor then
    { e with weighted_grade_ := 6 }
  else
    { e with weighted_grade_ := trunc 4 factor }

/-- Sets the curvature factor (0-15); an out-of-range factor stores 0. -/
def DirectedEdge.set_curvature (e : DirectedEdge) (factor : Nat) : DirectedEdge :=
  if factor > kMaxCurvatureFactor then
    { e with curvature_ := 0 }
  else
    { e with curvature_ := trunc 4 factor }

/-- Set the drive-on-right flag. -/
def DirectedEdge.set_drive_on_right (e : DirectedEdge) (rsd : Bool) : DirectedEdge :=
  { e with drive_on_right_ := rsd }

/-- Set the dead-end flag. -/
def DirectedEdge.set_deadend (e : DirectedEdge) (d : Bool) : DirectedEdge :=
  { e with deadend_ := d }

/-- Sets the toll flag. -/
def DirectedEdge.set_toll (e : DirectedEdge) (toll : Bool) : DirectedEdge :=
  { e with toll_ := toll }

/-- Sets the seasonal-access flag. -/
def DirectedEdge.set_seasonal (e : DirectedEdge) (seasonal : Bool) : DirectedEdge :=
  { e with seasonal_ := seasonal }

/-- Sets the destination-only (private) flag. -/
def DirectedEdge.set_dest_only (e : DirectedEdge) (destonly : Bool) : DirectedEdge :=
  { e with dest_only_ := destonly }

/-- Sets the tunnel flag. -/
def DirectedEdge.set_tunnel (e : DirectedEdge) (tunnel : Bool) : DirectedEdge :=
  { e with tunnel_ := tunnel }

/-- Sets the bridge flag. -/
def DirectedEdge.set_bridge (e : DirectedEdge) (bridge : Bool) : DirectedEdge :=
  { e with bridge_ := bridge }

/-- Sets the roundabout flag. -/
def DirectedEdge.set_roundabout (e : DirectedEdge) (roundabout : Bool) : DirectedEdge :=
  { e with roundabout_ := roundabout }

/-- Sets the unreachable-by-driving flag. -/
def DirectedEdge.set_unreachable (e : DirectedEdge) (unreachable : Bool) : DirectedEdge :=
  { e with unreachable_ := unreachable }

/-- Sets the traffic-signal flag. -/
def DirectedEdge.set_traffic_signal (e : DirectedEdge) (signal : Bool) : DirectedEdge :=
  { e with traffic_signal_ := signal }

/-- Set the forward-storage-direction flag. -/
def DirectedEdge.set_forward (e : DirectedEdge) (forward : Bool) : DirectedEdge :=
  { e with forward_ := forward }

/-- Sets the not-thru flag. -/
def DirectedEdge.set_not_thru (e : DirectedEdge) (not_thru : Bool) : DirectedEdge :=
  { e with not_thru_ := not_thru }

/-- Set the index of the opposing directed edge at the end node. -/
def DirectedEdge.set_opp_index (e : DirectedEdge) (opp_index : Nat) : DirectedEdge :=
  { e with opp_index_ := trunc 7 opp_index }

/-- Sets the type of cycle lane (stored as the enumeration's integer code). -/
def DirectedEdge.set_cyclelane (e : DirectedEdge) (cyclelane : Nat) : DirectedEdge :=
  { e with cycle_lane_ := trunc 2 cyclelane }

/-- Sets the bike-network mask; a mask beyond the maximum stores 0. -/
def DirectedEdge.set_bike_network (e : DirectedEdge) (bike_network : Nat) :
    DirectedEdge :=
  if bike_network > kMaxBicycleNetwork then
    { e with bike_network_ := 0 }
  else
    { e with bike_network_ := trunc 4 bike_network }

/-- Sets the truck-route flag. -/
def DirectedEdge.set_truck_route (e : DirectedEdge) (truck_route : Bool) :
    DirectedEdge :=
  { e with truck_route_ := truck_route }

/-- Sets the number of lanes (clamped to the maximum). -/
def DirectedEdge.set_lanecount (e : DirectedEdge) (lanecount : Nat) : DirectedEdge :=
  if lanecount > kMaxLaneCount then
    { e with lanecount_ := kMaxLaneCount }
  else
    { e with lanecount_ := trunc 4 lanecount }

/-- Set simple turn restrictions from the end of this directed edge; a mask
beyond the representable bits is masked down to them. -/
def DirectedEdge.set_restrictions (e : DirectedEdge) (mask : Nat) : DirectedEdge :=
  if mask ≥ 1 <<< kMaxTurnRestrictionEdges then
    { e with restrictions_ := trunc 8 (mask &&& (1 <<< kMaxTurnRestrictionEdges - 1)) }
  else
    { e with restrictions_ := trunc 8 mask }

/-- Sets the specialized use type (stored as the enumeration's integer code). -/
def DirectedEdge.set_use (e : DirectedEdge) (use : Nat) : DirectedEdge :=
  { e with use_ := trunc 6 use }

/-- Set the speed type (stored as the enumeration's integer code). -/
def DirectedEdge.set_speed_type (e : DirectedEdge) (speed_type : Nat) : DirectedEdge :=
  { e with speed_type_ := trunc 2 speed_type }

/-- Set the country-crossing flag. -/
def DirectedEdge.set_ctry_crossing (e : DirectedEdge) (crossing : Bool) : DirectedEdge :=
  { e with ctry_crossing_ := crossing }

/-- Set the access modes in the forward direction (bit field).  The source
masks the excess bits in the over-the-maximum branch, but then follows both
branches with a second plain assignment of `modes`, truncated by the 12-bit
access field. -/
def DirectedEdge.set_forwardaccess (e : DirectedEdge) (modes : Nat) : DirectedEdge :=
  let e1 :=
    if modes > kAllAccess then
      { e with forwardaccess_ := trunc 12 (modes &&& kAllAccess) }
    else
      { e with forwardaccess_ := trunc 12 modes }
  { e1 with forwardaccess_ := trunc 12 modes }

/-- Set all forward access modes to true (also sets reverse access). -/
def DirectedEdge.set_all_forward_access (e : DirectedEdge) : DirectedEdge :=
  { e with forwardaccess_ := trunc 12 kAllAccess, reverseaccess_ := trunc 12 kAllAccess }

/-- Set the access modes in the reverse direction (bit field). -/
def DirectedEdge.set_reverseaccess (e : DirectedEdge) (modes : Nat) : DirectedEdge :=
  if modes > kAllAccess then
    { e with reverseaccess_ := trunc 12 (modes &&& kAllAccess) }
  else
    { e with reverseaccess_ := trunc 12 modes }

/-- Sets the average speed in KPH (clamped to the maximum). -/
def DirectedEdge.set_speed (e : DirectedEdge) (speed : Nat) : DirectedEdge :=
  if speed > kMaxSpeed then
    { e with speed_ := kMaxSpeed }
  else
    { e with speed_ := trunc 8 speed }

/-- Sets the speed limit in KPH (clamped to the maximum). -/
def DirectedEdge.set_speed_limit (e : DirectedEdge) (speed_limit : Nat) : DirectedEdge :=
  if speed_limit > kMaxSpeed then
    { e with speed_limit_ := kMaxSpeed }
  else
    { e with speed_limit_ := trunc 8 speed_limit }

/-- Sets the truck speed in KPH (clamped to the maximum). -/
def DirectedEdge.set_truck_speed (e : DirectedEdge) (speed : Nat) : DirectedEdge :=
  if speed > kMaxSpeed then
    { e with truck_speed_ := kMaxSpeed }
  else
    { e with truck_speed_ := trunc 8 speed }

/-- Sets the classification (stored as the enumeration's integer code). -/
def DirectedEdge.set_classification (e : DirectedEdge) (roadclass : Nat) : DirectedEdge :=
  { e with classification_ := trunc 3 roadclass }

/-- Sets the surface type (stored as the enumeration's integer code). -/
def DirectedEdge.set_surface (e : DirectedEdge) (surface : Nat) : DirectedEdge :=
  { e with surface_ := trunc 3 surface }

/-- Sets the link (ramp or turn channel) flag. -/
def DirectedEdge.set_link (e : DirectedEdge) (link : Bool) : DirectedEdge :=
  { e with link_ := link }

/-- Sets the intersection-internal flag. -/
def DirectedEdge.set_internal (e : DirectedEdge) (internal : Bool) : DirectedEdge :=
  { e with internal_ := internal }

/-- Set the complex restriction (per mode) at the start of this edge. -/
def DirectedEdge.set_start_restriction (e : DirectedEdge) (modes : Nat) : DirectedEdge :=
  { e with start_restriction_ := trunc 12 modes }

/-- Set the complex restriction (per mode) at the end of this edge. -/
def DirectedEdge.set_end_restriction (e : DirectedEdge) (modes : Nat) : DirectedEdge :=
  { e with end_restriction_ := trunc 12 modes }

/-- Set the part-of-complex-restriction flag. -/
def DirectedEdge.set_part_of_complex_restriction (e : DirectedEdge) (part_of : Bool) :
    DirectedEdge :=
  { e with part_of_complex_restriction_ := part_of }

/-- Gets the maximum upward slope: 1-degree precision up to 16 degrees
(tier bit clear), 4-degree precision afterwards (tier bit set). -/
def DirectedEdge.max_up_slope (e : DirectedEdge) : Int :=
  if e.max_up_slope_ &&& 0x10 = 0 then (e.max_up_slope_ : Int)
  else 16 + ((e.max_up_slope_ &&& 0xf : Nat) : Int) * 4

/-- Sets the maximum upward slope, quantizing the degree value into the
5-bit two-tier code.  The float computation is exact on these operations,
modelled over the rationals. -/
def DirectedEdge.set_max_up_slope (e : DirectedEdge) (slope : ℚ) : DirectedEdge :=
  if slope < 0 then
    { e with max_up_slope_ := 0 }
  else if slope < 16 then
    { e with max_up_slope_ := trunc 5 (Int.toNat ⌈slope⌉) }
  else if slope < 76 then
    { e with max_up_slope_ := trunc 5 (0x10 ||| Int.toNat ⌈(slope - 16) * 0.25⌉) }
  else
    { e with max_up_slope_ := 0x1f }

/-- Gets the maximum downward slope (the decoded magnitude, negated). -/
def DirectedEdge.max_down_slope (e : DirectedEdge) : Int :=
  if e.max_down_slope_ &&& 0x10 = 0 then -((e.max_down_slope_ : Nat) : Int)
  else -((16 + ((e.max_down_slope_ &&& 0xf : Nat) : Int) * 4))

/-- Sets the maximum downward slope (same two-tier code on the magnitude). -/
def DirectedEdge.set_max_down_slope (e : DirectedEdge) (slope : ℚ) : DirectedEdge :=
  if slope > 0 then
    { e with max_down_slope_ := 0 }
  else if slope > -16 then
    { e with max_down_slope_ := trunc 5 (Int.toNat ⌈-slope⌉) }
  else if slope > -76 then
    { e with max_down_slope_ := trunc 5 (0x10 ||| Int.toNat ⌈(-slope - 16) * 0.25⌉) }
  else
    { e with max_down_slope_ := 0x1f }

/-- Set the density along the edge (clamped to the maximum). -/
def DirectedEdge.set_density (e : DirectedEdge) (density : Nat) : DirectedEdge :=
  if density > kMaxDensity then
    { e with density_ := kMaxDensity }
  else
    { e with density_ := trunc 4 density }

/-- Sets the named flag. -/
def DirectedEdge.set_named (e : DirectedEdge) (named : Bool) : DirectedEdge :=
  { e with named_ := named }

/-- Set the sidewalk-left flag. -/
def DirectedEdge.set_sidewalk_left (e : DirectedEdge) (sidewalk : Bool) : DirectedEdge :=
  { e with sidewalk_left_ := sidewalk }

/-- Set the sidewalk-right flag. -/
def DirectedEdge.set_sidewalk_right (e : DirectedEdge) (sidewalk : Bool) : DirectedEdge :=
  { e with sidewalk_right_ := sidewalk }

/-- Sets the turn type for the prior edge's local index: a 3-bit code at
slot `localidx` of the packed 24-bit array; an out-of-range index is a
rejected no-op. -/
def DirectedEdge.set_turntype (e : DirectedEdge) (localidx turntype : Nat) :
    DirectedEdge :=
  if localidx > kMaxLocalEdgeIndex then
    e
  else
    match OverwriteBits e.turntype_ turntype localidx 3 with
    | some v => { e with turntype_ := trunc 24 v }
    | none => e

/-- Modelled from the spec: per-index read of the packed 3-bit turn-type
array (the read-side getter lives in the header that is not part of this
unit). -/
def DirectedEdge.turntype (e : DirectedEdge) (localidx : Nat) : Nat :=
  (e.turntype_ >>> (localidx * 3)) &&& 7

/-- Set the edge-to-left flag for the given prior-edge local index; an
out-of-range index is a rejected no-op. -/
def DirectedEdge.set_edge_to_left (e : DirectedEdge) (localidx : Nat) (left : Bool) :
    DirectedEdge :=
  if localidx > kMaxLocalEdgeIndex then
    e
  else
    match OverwriteBits e.edge_to_left_ left.toNat localidx 1 with
    | some v => { e with edge_to_left_ := trunc 8 v }
    | none => e

/-- Set the stop impact when transitioning from the prior edge given by the
local index: a value beyond the maximum stop impact is clamped to the
maximum code.  The source performs no range check on the index itself, so
an index large enough to drive the shift count to 32 or beyond reaches the
undefined shift of the packing primitive (propagated here as `none`). -/
def DirectedEdge.set_stopimpact (e : DirectedEdge) (localidx stopimpact : Nat) :
    Option DirectedEdge :=
  if stopimpact > kMaxStopImpact then
    (OverwriteBits (s_stopimpact e.stopimpact_) kMaxStopImpact localidx 3).map
      (fun v => { e with stopimpact_ := write_s_stopimpact e.stopimpact_ v })
  else
    (OverwriteBits (s_stopimpact e.stopimpact_) stopimpact localidx 3).map
      (fun v => { e with stopimpact_ := write_s_stopimpact e.stopimpact_ v })

/-- Modelled from the spec: per-index read of the packed 3-bit stop-impact
array (the read-side getter lives in the header that is not part of this
unit). -/
def DirectedEdge.stopimpact (e : DirectedEdge) (localidx : Nat) : Nat :=
  (s_stopimpact e.stopimpact_ >>> (localidx * 3)) &&& 7

/-- Set the unique transit line id (the other view of the union slot). -/
def DirectedEdge.set_lineid (e : DirectedEdge) (lineid : Nat) : DirectedEdge :=
  { e with stopimpact_ := u32 lineid }

/-- Set the edge-to-right flag for the given prior-edge local index; an
out-of-range index is a rejected no-op. -/
def DirectedEdge.set_edge_to_right (e : DirectedEdge) (localidx : Nat) (right : Bool) :
    DirectedEdge :=
  if localidx > kMaxLocalEdgeIndex then
    e
  else
    match OverwriteBits (s_edge_to_right e.stopimpact_) right.toNat localidx 1 with
    | some v => { e with stopimpact_ := write_s_edge_to_right e.stopimpact_ v }
    | none => e

/-- Set the index of the directed edge on the local hierarchy level
(clamped to the maximum). -/
def DirectedEdge.set_localedgeidx (e : DirectedEdge) (idx : Nat) : DirectedEdge :=
  if idx > kMaxEdgesPerNode then
    { e with localedgeidx_ := kMaxEdgesPerNode }
  else
    { e with localedgeidx_ := trunc 7 idx }

/-- Set the index of the opposing directed edge on the local hierarchy level
(clamped to the maximum). -/
def DirectedEdge.set_opp_local_idx (e : DirectedEdge) (idx : Nat) : DirectedEdge :=
  if idx > kMaxEdgesPerNode then
    { e with opp_local_idx_ := kMaxEdgesPerNode }
  else
    { e with opp_local_idx_ := trunc 7 idx }

/-- Set the shortcut mask / flag: slot 0 is invalid and rejected outright;
a slot within the maximum sets the one-hot mask bit `slot - 1`; whether or
not the slot exceeded the maximum, the is-shortcut flag is set. -/
def DirectedEdge.set_shortcut (e : DirectedEdge) (shortcut : Nat) : DirectedEdge :=
  if shortcut = 0 then
    e
  else
    let e1 :=
      if shortcut ≤ kMaxShortcutsFromNode then
        { e with shortcut_ := trunc 7 (1 <<< (shortcut - 1)) }
      else
        e
    { e1 with is_shortcut_ := true }

/-- Set the superseded one-hot mask: a slot beyond the maximum is a warned
no-op; otherwise the source computes `1 << (slot - 1)` in `uint32`
arithmetic, which for slot 0 wraps to a shift amount outside the
container's range - undefined behavior in the source, modelled as the
guarded error value `none`. -/
def DirectedEdge.set_superseded (e : DirectedEdge) (superseded : Nat) :
    Option DirectedEdge :=
  if superseded > kMaxShortcutsFromNode then
    some e
  else
    let sh := u32 (u32 superseded + 0xFFFFFFFF)
    if 32 ≤ sh then
      none
    else
      some { e with superseded_ := trunc 7 (1 <<< sh) }

/-- Set the end-node-in-a-different-tile flag. -/
def DirectedEdge.set_leaves_tile (e : DirectedEdge) (leaves_tile : Bool) :
    DirectedEdge :=
  { e with leaves_tile_ := leaves_tile }

/-- External name-lookup / projection sources delegated by the export
projection: the end-node identifier's own projection and the
enumeration-to-name mappings, all external to this unit. -/
inductive ExtName where
  | endnodeProj : ExtName
  | cycleLaneName : ExtName
  | useName : ExtName
  | speedTypeName : ExtName
  | roadClassName : ExtName
  | surfaceName : ExtName

/-- Values of the structured export document: booleans, unsigned integers,
fixed-precision floating-point values (value and digit count), delegated
external projections of a stored integer code, and nested maps. -/
inductive JsonVal where
  | jb : Bool → JsonVal
  | jn : Nat → JsonVal
  | jfp : ℚ → Nat → JsonVal
  | jext : ExtName → Nat → JsonVal
  | jmap : List (String × JsonVal) → JsonVal

/-- Projection of an access bitmask to the nine named per-mode booleans. -/
def access_json (access : Nat) : JsonVal :=
  JsonVal.jmap [
    (("bicycle"), JsonVal.jb (access &&& kBicycleAccess != 0)),
    (("bus"), JsonVal.jb (access &&& kBusAccess != 0)),
    (("car"), JsonVal.jb (access &&& kAutoAccess != 0)),
    (("emergency"), JsonVal.jb (access &&& kEmergencyAccess != 0)),
    (("HOV"), JsonVal.jb (access &&& kHOVAccess != 0)),
    (("pedestrian"), JsonVal.jb (access &&& kPedestrianAccess != 0)),
    (("taxi"), JsonVal.jb (access &&& kTaxiAccess != 0)),
    (("truck"), JsonVal.jb (access &&& kTruckAccess != 0)),
    (("wheelchair"), JsonVal.jb (access &&& kWheelchairAccess != 0))]

/-- Projection of the bike-network mask to the four named booleans. -/
def bike_network_json (mask : Nat) : JsonVal :=
  JsonVal.jmap [
    (("national"), JsonVal.jb (mask &&& kNcn != 0)),
    (("regional"), JsonVal.jb (mask &&& kRcn != 0)),
    (("local"), JsonVal.jb (mask &&& kLcn != 0)),
    (("mountain"), JsonVal.jb (mask &&& kMcn != 0))]

/-- Structured export projection of a directed edge record. -/
def DirectedEdge.json (e : DirectedEdge) : JsonVal :=
  JsonVal.jmap [
    (("end_node"), JsonVal.jext ExtName.endnodeProj e.endnode_),
    (("speed"), JsonVal.jn e.speed_),
    (("access_restriction"), JsonVal.jb (e.access_restriction_ != 0)),
    (("start_restriction"), access_json e.start_restriction_),
    (("end_restriction"), access_json e.end_restriction_),
    (("part_of_complex_restriction"), JsonVal.jb e.part_of_complex_restriction_),
    (("has_exit_sign"), JsonVal.jb e.exitsign_),
    (("drive_on_right"), JsonVal.jb e.drive_on_right_),
    (("toll"), JsonVal.jb e.toll_),
    (("seasonal"), JsonVal.jb e.seasonal_),
    (("destination_only"), JsonVal.jb e.dest_only_),
    (("tunnel"), JsonVal.jb e.tunnel_),
    (("bridge"), JsonVal.jb e.bridge_),
    (("round_about"), JsonVal.jb e.roundabout_),
    (("unreachable"), JsonVal.jb e.unreachable_),
    (("traffic_signal"), JsonVal.jb e.traffic_signal_),
    (("forward"), JsonVal.jb e.forward_),
    (("not_thru"), JsonVal.jb e.not_thru_),
    (("cycle_lane"), JsonVal.jext ExtName.cycleLaneName e.cycle_lane_),
    (("bike_network"), bike_network_json e.bike_network_),
    (("truck_route"), JsonVal.jb e.truck_route_),
    (("lane_count"), JsonVal.jn e.lanecount_),
    (("use"), JsonVal.jext ExtName.useName e.use_),
    (("speed_type"), JsonVal.jext ExtName.speedTypeName e.speed_type_),
    (("country_crossing"), JsonVal.jb e.ctry_crossing_),
    (("geo_attributes"), JsonVal.jmap [
      (("length"), JsonVal.jn e.length_),
      (("weighted_grade"), JsonVal.jfp (((e.weighted_grade_ : ℚ) - 6) / 0.6) 2)]),
    (("access"), access_json e.forwardaccess_),
    (("classification"), JsonVal.jmap [
      (("classification"), JsonVal.jext ExtName.roadClassName e.classification_),
      (("surface"), JsonVal.jext ExtName.surfaceName e.surface_),
      (("link"), JsonVal.jb e.link_),
      (("internal"), JsonVal.jb e.internal_)])]

/-- Top-level entries of an export document (empty for non-map values). -/
def topEntries : JsonVal → List (String × JsonVal)
  | JsonVal.jmap l => l
  | _ => []

/-- Top-level keys of an export document. -/
def jsonKeys (e : DirectedEdge) : List String :=
  (topEntries (DirectedEdge.json e)).map Prod.fst

theorem u32_lt (x : Nat) : u32 x < 2 ^ 32 := by
  have h : (4294967296 : Nat) = 2 ^ 32 := by norm_num
  simpa [u32, h] using Nat.mod_lt x (by norm_num)

theorem u32_eq_mod (x : Nat) : u32 x = x % 2 ^ 32 := by
  norm_num [u32]

theorem u32_id {x : Nat} (h : x < 2 ^ 32) : u32 x = x := by
  rw [u32_eq_mod]
  exact Nat.mod_eq_of_lt h

theorem u32_mul (a b : Nat) : u32 (u32 a * u32 b) = u32 (a * b) := by
  simp [u32_eq_mod, Nat.mul_mod]

theorem u32_testBit (x : Nat) {j : Nat} (hj : j < 32) :
    (u32 x).testBit j = x.testBit j := by
  rw [u32_eq_mod, Nat.testBit_mod_two_pow]
  simp [hj]

theorem testBit_false_of_lt {x n j : Nat} (h : x < 2 ^ n) (hj : n ≤ j) :
    x.testBit j = false :=
  Nat.testBit_eq_false_of_lt
    (lt_of_lt_of_le h (Nat.pow_le_pow_right (by norm_num) hj))

theorem allones_testBit (j : Nat) :
    (0xFFFFFFFF : Nat).testBit j = decide (j < 32) := by
  have h : (0xFFFFFFFF : Nat) = 2 ^ 32 - 1 := by norm_num
  rw [h, Nat.testBit_two_pow_sub_one]


/-- Bit-level characterization of the packing primitive in its
well-defined regime: the window fits in 32 bits, the width stays below 32
(so no shift count reaches 32) and the source value fits in the window
width.  The result is `some` of a 32-bit value whose window holds `src`
and whose other bits are those of `dst`. -/
theorem OverwriteBits_some_testBit {dst src pos len : Nat} (hd : dst < 2 ^ 32)
    (hs : src < 2 ^ len) (hw : pos * len + len ≤ 32) (hl : len ≤ 31) :
    ∃ r : Nat, OverwriteBits dst src pos len = some r ∧ r < 2 ^ 32 ∧
      ∀ j, r.testBit j =
        if pos * len ≤ j ∧ j < pos * len + len then src.testBit (j - pos * len)
        else dst.testBit j := by
  have hsrc32 : src < 2 ^ 32 :=
    lt_of_lt_of_le hs (Nat.pow_le_pow_right (by norm_num) (by omega))
  have hs32 : pos * len < 32 := by
    rcases Nat.eq_zero_or_pos len with h0 | h1
    · simp [h0]
    · omega
  have hulen : u32 len = len := u32_id (by omega)
  have hsh : u32 (u32 pos * len) = pos * len := by
    have h1 : u32 pos * len = u32 pos * u32 len := by rw [hulen]
    rw [h1, u32_mul]
    exact u32_id (by omega)
  have hX : u32 (1 <<< len) - 1 = 2 ^ len - 1 := by
    rw [Nat.shiftLeft_eq, one_mul,
      u32_id (Nat.pow_lt_pow_right (by norm_num) (by omega))]
  have hres : (dst &&& (u32 ((2 ^ len - 1) <<< (pos * len)) ^^^ 0xFFFFFFFF))
      ||| u32 (src <<< (pos * len)) < 2 ^ 32 :=
    Nat.or_lt_two_pow (lt_of_le_of_lt Nat.and_le_left hd) (u32_lt _)
  refine ⟨(dst &&& (u32 ((2 ^ len - 1) <<< (pos * len)) ^^^ 0xFFFFFFFF))
      ||| u32 (src <<< (pos * len)), ?_, hres, ?_⟩
  · simp only [OverwriteBits, hulen, hsh, hX, u32_id hd, u32_id hsrc32]
    rw [if_neg (by omega)]
  · intro j
    have hMbit : ∀ i, i < 32 →
        (u32 ((2 ^ len - 1) <<< (pos * len))).testBit i
          = (decide (pos * len ≤ i) && decide (i - pos * len < len)) := by
      intro i hi
      rw [u32_testBit _ hi, Nat.testBit_shiftLeft, Nat.testBit_two_pow_sub_one]
    rcases Nat.lt_or_ge j 32 with hj | hj
    · rw [Nat.testBit_or, Nat.testBit_and, Nat.testBit_xor, allones_testBit,
        hMbit j hj, u32_testBit _ hj, Nat.testBit_shiftLeft]
      simp only [ge_iff_le]
      have hsj : decide (j < 32) = true := by simp [hj]
      by_cases hle : pos * len ≤ j
      · have d1 : decide (pos * len ≤ j) = true := by simp [hle]
        by_cases hwin : j < pos * len + len
        · have d2 : decide (j - pos * len < len) = true := by
            simp only [decide_eq_true_eq]
            omega
          rw [if_pos ⟨hle, hwin⟩]
          simp [d1, d2, hsj]
        · have d2 : decide (j - pos * len < len) = false := by
            simp only [decide_eq_false_iff_not]
            omega
          have d3 : src.testBit (j - pos * len) = false :=
            testBit_false_of_lt hs (by omega)
          rw [if_neg (by omega)]
          simp [d1, d2, d3, hsj]
      · have d1 : decide (pos * len ≤ j) = false := by simp [hle]
        rw [if_neg (by omega)]
        simp [d1, hsj]
    · rw [testBit_false_of_lt hres hj, if_neg (by omega),
        testBit_false_of_lt hd hj]

/-- Reading back the window that was just written returns the source
value. -/
theorem OverwriteBits_extract {dst src pos len r : Nat} (hd : dst < 2 ^ 32)
    (hs : src < 2 ^ len) (hw : pos * len + len ≤ 32) (hl : len ≤ 31)
    (hr : OverwriteBits dst src pos len = some r) :
    (r >>> (pos * len)) % 2 ^ len = src := by
  obtain ⟨r2, hr2, hlt2, hb⟩ := OverwriteBits_some_testBit hd hs hw hl
  have hrr : r2 = r := by
    rw [hr] at hr2
    exact (Option.some.inj hr2).symm
  subst hrr
  apply Nat.eq_of_testBit_eq
  intro j
  rw [Nat.testBit_mod_two_pow, Nat.testBit_shiftRight, hb]
  by_cases hj : j < len
  · rw [if_pos (by omega)]
    simp [hj, Nat.add_sub_cancel_left]
  · rw [if_neg (by omega), testBit_false_of_lt hs (Nat.le_of_not_lt hj)]
    simp [hj]

/-- A write whose window starts at or beyond bit 24 while the shift count
stays below 32 leaves the low 24 bits of the destination unchanged. -/
theorem OverwriteBits_high_low24 {dst src pos : Nat} (hdst : dst < 2 ^ 24)
    (hge : 24 ≤ pos * 3) (hlt : pos * 3 < 32) :
    ∃ r, OverwriteBits dst src pos 3 = some r ∧ r &&& 0xFFFFFF = dst := by
  have hd32 : dst < 2 ^ 32 := by omega
  have hu3 : u32 3 = 3 := by norm_num [u32]
  have hsh : u32 (u32 pos * 3) = pos * 3 := by
    have h1 : u32 pos * 3 = u32 pos * u32 3 := by rw [hu3]
    rw [h1, u32_mul]
    exact u32_id (by omega)
  have hX : u32 (1 <<< 3) - 1 = 2 ^ 3 - 1 := by decide
  have h24 : (0xFFFFFF : Nat) = 2 ^ 24 - 1 := by norm_num
  refine ⟨(dst &&& (u32 ((2 ^ 3 - 1) <<< (pos * 3)) ^^^ 0xFFFFFFFF))
      ||| u32 (u32 src <<< (pos * 3)), ?_, ?_⟩
  · simp only [OverwriteBits, hu3, hsh, hX, u32_id hd32]
    rw [if_neg (by omega)]
  · apply Nat.eq_of_testBit_eq
    intro j
    rw [Nat.testBit_and, h24, Nat.testBit_two_pow_sub_one]
    by_cases hj : j < 24
    · have hj32 : j < 32 := by omega
      rw [Nat.testBit_or, Nat.testBit_and, Nat.testBit_xor, allones_testBit,
        u32_testBit _ hj32, Nat.testBit_shiftLeft, u32_testBit _ hj32,
        Nat.testBit_shiftLeft]
      simp only [ge_iff_le]
      have d1 : decide (pos * 3 ≤ j) = false := by
        simp only [decide_eq_false_iff_not]
        omega
      simp [d1, hj32, hj]
    · rw [testBit_false_of_lt hdst (Nat.le_of_not_lt hj)]
      simp [hj]

/-- Recombining the high byte and the low 24 bits of a 32-bit value gives
the value back. -/
theorem hi_lo_or {x : Nat} (hx : x < 2 ^ 32) :
    (x &&& 0xFF000000) ||| (x &&& 0xFFFFFF) = x := by
  have h1 : (0xFF000000 : Nat) = (2 ^ 8 - 1) <<< 24 := by decide
  have h2 : (0xFFFFFF : Nat) = 2 ^ 24 - 1 := by norm_num
  apply Nat.eq_of_testBit_eq
  intro j
  rw [Nat.testBit_or, Nat.testBit_and, Nat.testBit_and, h1, h2,
    Nat.testBit_shiftLeft, Nat.testBit_two_pow_sub_one,
    Nat.testBit_two_pow_sub_one]
  simp only [ge_iff_le]
  by_cases hj : j < 24
  · have d1 : decide (24 ≤ j) = false := by
      simp only [decide_eq_false_iff_not]
      omega
    simp [d1, hj]
  · by_cases hj32 : j < 32
    · have d1 : decide (24 ≤ j) = true := by
        simp only [decide_eq_true_eq]
        omega
      have d2 : decide (j - 24 < 8) = true := by
        simp only [decide_eq_true_eq]
        omega
      simp [d1, d2, hj, hj32]
    · rw [testBit_false_of_lt hx (Nat.le_of_not_lt hj32)]
      simp [hj, hj32]

/-- The low 24 bits of the union slot after an assignment to the 24-bit
stop-impact member are the assigned value's low 24 bits. -/
theorem s_stopimpact_write (u x : Nat) :
    s_stopimpact (write_s_stopimpact u x) = x &&& 0xFFFFFF := by
  have h1 : (0xFF000000 : Nat) = (2 ^ 8 - 1) <<< 24 := by decide
  have h2 : (0xFFFFFF : Nat) = 2 ^ 24 - 1 := by norm_num
  apply Nat.eq_of_testBit_eq
  intro j
  simp only [s_stopimpact, write_s_stopimpact, h1, h2]
  rw [Nat.testBit_and, Nat.testBit_or, Nat.testBit_and, Nat.testBit_and,
    Nat.testBit_shiftLeft, Nat.testBit_two_pow_sub_one,
    Nat.testBit_two_pow_sub_one]
  simp only [ge_iff_le]
  by_cases hj : j < 24
  · have d1 : decide (24 ≤ j) = false := by
      simp only [decide_eq_false_iff_not]
      omega
    simp [d1, hj]
  · simp [hj]

theorem trunc_id {w x : Nat} (h : x < 2 ^ w) : trunc w x = x :=
  Nat.mod_eq_of_lt h

theorem or16_eq {k : Nat} (hk : k < 16) : 16 ||| k = 16 + k := by
  interval_cases k <;> decide

theorem and15_eq {k : Nat} (hk : k < 16) : (16 + k) &&& 15 = k := by
  interval_cases k <;> decide

theorem and16_hi {k : Nat} (hk : k < 16) : (16 + k) &&& 16 = 16 := by
  interval_cases k <;> decide

/-- Decoding the 5-bit code of a magnitude that was at most 16 returns the
code itself (both below and at the tier boundary). -/
theorem decode_code_id {c : Nat} (hc : c ≤ 16) :
    (if c &&& 0x10 = 0 then ((c : Nat) : Int)
      else 16 + ((c &&& 0xf : Nat) : Int) * 4) = (c : Int) := by
  interval_cases c <;> decide

/-- The downward decode of any stored code is the negation of the upward
decode of the same code. -/
theorem down_neg_up (e : DirectedEdge) (c : Nat) :
    DirectedEdge.max_down_slope { e with max_down_slope_ := c }
      = -(DirectedEdge.max_up_slope { e with max_up_slope_ := c }) := by
  simp only [DirectedEdge.max_down_slope, DirectedEdge.max_up_slope]
  by_cases h : c &&& 0x10 = 0 <;> simp [h]

/-- Reducing a value modulo a power of two does not change a 3-bit window
that lies inside the kept bits. -/
theorem shift_mod_bridge {X s w : Nat} (hsw : s + 3 ≤ w) :
    ((X % 2 ^ w) >>> s) % 2 ^ 3 = (X >>> s) % 2 ^ 3 := by
  apply Nat.eq_of_testBit_eq
  intro j
  rw [Nat.testBit_mod_two_pow, Nat.testBit_mod_two_pow, Nat.testBit_shiftRight,
    Nat.testBit_shiftRight, Nat.testBit_mod_two_pow]
  by_cases hj : j < 3
  · have hlt : s + j < w := by omega
    simp [hj, hlt]
  · simp [hj]

theorem OverwriteBits_u32_dst (dst src pos len : Nat) :
    OverwriteBits (u32 dst) src pos len = OverwriteBits dst src pos len := by
  have h : u32 (u32 dst) = u32 dst := by
    rw [u32_eq_mod, u32_eq_mod, Nat.mod_mod_of_dvd _ (dvd_refl _)]
  simp only [OverwriteBits]
  rw [h]

/-- Claim C1: for every modes value, `set_forwardaccess modes` with
`modes > kAllAccess` stores `modes AND kAllAccess` in the forward access
mask, and with `modes <= kAllAccess` stores `modes` unchanged; in no case
does a value with bits outside `kAllAccess` remain stored.  (The masking
branch of the source is overwritten by a trailing plain assignment, but the
12-bit field truncation coincides with `AND kAllAccess`.) -/
theorem C1_set_forwardaccess_masks (e : DirectedEdge) (modes : Nat) :
    (kAllAccess < modes →
      (e.set_forwardaccess modes).forwardaccess_ = modes &&& kAllAccess) ∧
    (modes ≤ kAllAccess →
      (e.set_forwardaccess modes).forwardaccess_ = modes) ∧
    (e.set_forwardaccess modes).forwardaccess_ &&& kAllAccess
      = (e.set_forwardaccess modes).forwardaccess_ := by
  have hval : (e.set_forwardaccess modes).forwardaccess_ = modes % 2 ^ 12 := by
    simp only [DirectedEdge.set_forwardaccess, trunc]
  have hAll : kAllAccess = 2 ^ 12 - 1 := by norm_num [kAllAccess]
  refine ⟨?_, ?_, ?_⟩
  · intro h
    rw [hval, hAll, Nat.and_pow_two_sub_one_eq_mod]
  · intro h
    rw [hval]
    have hlt : modes < 2 ^ 12 := by
      simp only [kAllAccess] at h
      omega
    exact Nat.mod_eq_of_lt hlt
  · rw [hval, hAll, Nat.and_pow_two_sub_one_eq_mod]
    omega

/-- Claim C1 witness at a concrete over-the-maximum input. -/
theorem C1_witness :
    kAllAccess < 5000 ∧
    (DirectedEdge.default.set_forwardaccess 5000).forwardaccess_
      = 5000 &&& kAllAccess :=
  ⟨by decide, (C1_set_forwardaccess_masks DirectedEdge.default 5000).1 (by decide)⟩

/-- Claim C7: an offset beyond `kMaxEdgeInfoOffset` makes
`set_edgeinfo_offset` fail fatally and no updated record is produced, while
any offset within the maximum is stored unmodified. -/
theorem C7_set_edgeinfo_offset (e : DirectedEdge) (offset : Nat) :
    (kMaxEdgeInfoOffset < offset → e.set_edgeinfo_offset offset = none) ∧
    (offset ≤ kMaxEdgeInfoOffset →
      e.set_edgeinfo_offset offset
        = some { e with edgeinfo_offset_ := offset }) := by
  constructor
  · intro h
    simp [DirectedEdge.set_edgeinfo_offset, h]
  · intro h
    have hlt : offset < 2 ^ 25 := by
      simp only [kMaxEdgeInfoOffset] at h
      omega
    simp [DirectedEdge.set_edgeinfo_offset, Nat.not_lt.2 h, trunc_id hlt]

/-- Claim C7 witness at a concrete over-the-maximum and a concrete in-range
offset. -/
theorem C7_witness :
    (DirectedEdge.default.set_edgeinfo_offset 40000000 = none) ∧
    (DirectedEdge.default.set_edgeinfo_offset 12345
      = some { DirectedEdge.default with edgeinfo_offset_ := 12345 }) :=
  ⟨(C7_set_edgeinfo_offset DirectedEdge.default 40000000).1 (by decide),
   (C7_set_edgeinfo_offset DirectedEdge.default 12345).2 (by decide)⟩

/-- Claim C9: a default-constructed record stores weighted grade 6 with all
other fields zero, and `set_weighted_grade` stores the default 6 (not the
maximum) for factors above the maximum, and the factor itself otherwise. -/
theorem C9_default_and_weighted_grade (e : DirectedEdge) (F : Nat) :
    DirectedEdge.default = ⟨0, 0, 0, false, 0, 6, 0, false, false, false,
      false, false, false, false, false, false, false, false, false, 0, 0, 0,
      false, 0, 0, 0, 0, false, 0, 0, 0, 0, 0, 0, 0, false, false, 0, 0,
      false, 0, 0, 0, false, false, false, 0, 0, 0, 0, 0, 0, 0, false,
      false⟩ ∧
    (kMaxGradeFactor < F → (e.set_weighted_grade F).weighted_grade_ = 6) ∧
    (F ≤ kMaxGradeFactor → (e.set_weighted_grade F).weighted_grade_ = F) := by
  refine ⟨rfl, ?_, ?_⟩
  · intro h
    simp [DirectedEdge.set_weighted_grade, h]
  · intro h
    have hlt : F < 2 ^ 4 := by
      simp only [kMaxGradeFactor] at h
      omega
    simp [DirectedEdge.set_weighted_grade, Nat.not_lt.2 h, trunc_id hlt]

/-- Claim C9 witness at a concrete over-the-maximum grade factor. -/
theorem C9_witness :
    kMaxGradeFactor < 99 ∧
    (DirectedEdge.default.set_weighted_grade 99).weighted_grade_ = 6 :=
  ⟨by decide,
   (C9_default_and_weighted_grade DirectedEdge.default 99).2.1 (by decide)⟩

/-- Claim C4: `set_shortcut 0` is a full no-op; for a slot within the
maximum the shortcut mask becomes exactly the one-hot bit `k - 1` and the
is-shortcut flag is set; for a slot beyond the maximum the mask is left
unchanged but the is-shortcut flag is nevertheless set. -/
theorem C4_set_shortcut (e : DirectedEdge) (k : Nat) :
    (e.set_shortcut 0 = e) ∧
    (1 ≤ k → k ≤ kMaxShortcutsFromNode →
      (e.set_shortcut k).shortcut_ = 2 ^ (k - 1) ∧
      (e.set_shortcut k).is_shortcut_ = true) ∧
    (kMaxShortcutsFromNode < k →
      (e.set_shortcut k).shortcut_ = e.shortcut_ ∧
      (e.set_shortcut k).is_shortcut_ = true) := by
  refine ⟨rfl, ?_, ?_⟩
  · intro h1 h7
    have h7' : k ≤ 7 := by simpa [kMaxShortcutsFromNode] using h7
    have hlt : 1 <<< (k - 1) < 2 ^ 7 := by
      rw [Nat.shiftLeft_eq, one_mul]
      exact Nat.pow_lt_pow_right (by norm_num) (by omega)
    simp only [DirectedEdge.set_shortcut]
    rw [if_neg (by omega), if_pos h7]
    constructor
    · show trunc 7 (1 <<< (k - 1)) = 2 ^ (k - 1)
      rw [trunc_id hlt, Nat.shiftLeft_eq, one_mul]
    · rfl
  · intro h
    simp only [DirectedEdge.set_shortcut]
    rw [if_neg (by simp only [kMaxShortcutsFromNode] at h; omega),
      if_neg (by omega)]
    exact ⟨rfl, rfl⟩

/-- Claim C4 witness at slot 3 (in range) and slot 9 (beyond the maximum). -/
theorem C4_witness :
    ((DirectedEdge.default.set_shortcut 3).shortcut_ = 2 ^ (3 - 1) ∧
      (DirectedEdge.default.set_shortcut 3).is_shortcut_ = true) ∧
    ((DirectedEdge.default.set_shortcut 9).shortcut_
        = DirectedEdge.default.shortcut_ ∧
      (DirectedEdge.default.set_shortcut 9).is_shortcut_ = true) :=
  ⟨(C4_set_shortcut DirectedEdge.default 3).2.1 (by decide) (by decide),
   (C4_set_shortcut DirectedEdge.default 9).2.2 (by decide)⟩

/-- Claim C5: for every slot between 1 and the maximum, `set_superseded`
stores the one-hot mask with exactly bit `slot - 1` set; beyond the maximum
the mask is left unchanged; and the `1 << (slot - 1)` shift is well-defined
only for slots at least 1 - the guarded out-of-range-shift error branch is
reached exactly for slot 0. -/
theorem C5_set_superseded (e : DirectedEdge) (s : Nat) (hs : s < 2 ^ 32) :
    (1 ≤ s → s ≤ kMaxShortcutsFromNode →
      e.set_superseded s = some { e with superseded_ := 2 ^ (s - 1) }) ∧
    (kMaxShortcutsFromNode < s → e.set_superseded s = some e) ∧
    (e.set_superseded s = none ↔ s = 0) := by
  have hB : kMaxShortcutsFromNode < s → e.set_superseded s = some e := by
    intro h
    simp [DirectedEdge.set_superseded, h]
  have hA : 1 ≤ s → s ≤ kMaxShortcutsFromNode →
      e.set_superseded s = some { e with superseded_ := 2 ^ (s - 1) } := by
    intro h1 h7
    have h7' : s ≤ 7 := by simpa [kMaxShortcutsFromNode] using h7
    have hsh : u32 (u32 s + 0xFFFFFFFF) = s - 1 := by
      rw [u32_id hs, u32_eq_mod]
      omega
    have hlt : 1 <<< (s - 1) < 2 ^ 7 := by
      rw [Nat.shiftLeft_eq, one_mul]
      exact Nat.pow_lt_pow_right (by norm_num) (by omega)
    simp only [DirectedEdge.set_superseded, hsh]
    rw [if_neg (by simp only [kMaxShortcutsFromNode]; omega), if_neg (by omega),
      trunc_id hlt, Nat.shiftLeft_eq, one_mul]
  have h0 : s = 0 → e.set_superseded s = none := by
    intro h
    subst h
    rfl
  refine ⟨hA, hB, ?_, h0⟩
  intro hnone
  by_contra hne
  have h1 : 1 ≤ s := Nat.one_le_iff_ne_zero.mpr hne
  rcases le_or_lt s kMaxShortcutsFromNode with h7 | h7
  · rw [hA h1 h7] at hnone
    exact Option.noConfusion hnone
  · rw [hB h7] at hnone
    exact Option.noConfusion hnone

/-- Claim C5 witness: slot 3 stores the one-hot bit 2; slot 0 reaches the
guarded error branch. -/
theorem C5_witness :
    (DirectedEdge.default.set_superseded 3
      = some { DirectedEdge.default with superseded_ := 2 ^ (3 - 1) }) ∧
    (DirectedEdge.default.set_superseded 0 = none) :=
  ⟨(C5_set_superseded DirectedEdge.default 3 (by norm_num)).1 (by decide)
      (by decide),
   (C5_set_superseded DirectedEdge.default 0 (by norm_num)).2.2.mpr rfl⟩

/-- Claim C8: for every local index within the maximum and every valid
3-bit turn-type code, writing the code then reading the turn-type slot at
that index returns the code; for an index beyond the maximum,
`set_turntype`, `set_edge_to_left` and `set_edge_to_right` leave the record
completely unchanged. -/
theorem C8_turntype_roundtrip (e : DirectedEdge) (i T : Nat) (b : Bool)
    (hT : T ≤ 7) :
    (i ≤ kMaxLocalEdgeIndex → (e.set_turntype i T).turntype i = T) ∧
    (kMaxLocalEdgeIndex < i →
      e.set_turntype i T = e ∧ e.set_edge_to_left i b = e ∧
        e.set_edge_to_right i b = e) := by
  constructor
  · intro hi
    have hi7 : i ≤ 7 := by simpa [kMaxLocalEdgeIndex] using hi
    have hw : i * 3 + 3 ≤ 32 := by omega
    have hs : T < 2 ^ 3 := by omega
    obtain ⟨r, hr0, hr32, hb⟩ :=
      OverwriteBits_some_testBit (u32_lt e.turntype_) hs hw (by omega)
    have hr : OverwriteBits e.turntype_ T i 3 = some r := by
      rw [← OverwriteBits_u32_dst]
      exact hr0
    simp only [DirectedEdge.set_turntype]
    rw [if_neg (by simp only [kMaxLocalEdgeIndex]; omega), hr]
    show DirectedEdge.turntype { e with turntype_ := trunc 24 r } i = T
    simp only [DirectedEdge.turntype, trunc]
    rw [show (7 : Nat) = 2 ^ 3 - 1 from by norm_num,
      Nat.and_pow_two_sub_one_eq_mod, shift_mod_bridge (by omega),
      OverwriteBits_extract (u32_lt e.turntype_) hs hw (by omega) hr0]
  · intro hi
    have hi7 : kMaxLocalEdgeIndex < i := hi
    refine ⟨?_, ?_, ?_⟩
    · simp [DirectedEdge.set_turntype, hi7]
    · simp [DirectedEdge.set_edge_to_left, hi7]
    · simp [DirectedEdge.set_edge_to_right, hi7]

/-- Claim C8 witness: slot 2 round-trips code 5; index 9 writes are
rejected no-ops. -/
theorem C8_witness :
    ((DirectedEdge.default.set_turntype 2 5).turntype 2 = 5) ∧
    (DirectedEdge.default.set_turntype 9 5 = DirectedEdge.default) :=
  ⟨(C8_turntype_roundtrip DirectedEdge.default 2 5 false (by decide)).1
      (by decide),
   ((C8_turntype_roundtrip DirectedEdge.default 9 5 false (by decide)).2
      (by decide)).1⟩

/-- Claim C2 counterexample: `set_stopimpact` performs no range check on
the index.  At index 1431655766 the 32-bit product `index * 3` wraps
modulo `2 ^ 32` to shift 2 - well-defined unsigned arithmetic, no
undefined shift - and the call stores 28 into the previously zero
stop-impact slot of a default record instead of being rejected, refuting
the claimed no-op for every index above the maximum. -/
theorem C2_counterexample :
    kMaxLocalEdgeIndex < 1431655766 ∧
    (DirectedEdge.default.set_stopimpact 1431655766 7).map
        DirectedEdge.stopimpact_ = some 28 ∧
    DirectedEdge.default.stopimpact_ = 0 :=
  ⟨by decide, by decide, by decide⟩

/-- Claim C2 (amended): at a valid index the stop-impact write clamps the
value - a value above the maximum stop impact stores the maximum code at
slot i, never the out-of-range value.  The source performs no range check
on the index: out-of-range indices 8, 9 and 10 (window beyond the 24-bit
member while the shift count stays below 32) happen to leave the record
unchanged; any index driving the wrapped shift count `i * 3 mod 2 ^ 32`
to 32 or beyond reaches a shift that is undefined behavior in the source,
modelled as the guarded error `none`; and an index whose shift wraps back
below the member width modifies the record (see the counterexample). -/
theorem C2_set_stopimpact (e : DirectedEdge) (i v : Nat)
    (he : e.stopimpact_ < 2 ^ 32) :
    (i ≤ kMaxLocalEdgeIndex →
      ∃ e2, e.set_stopimpact i v = some e2 ∧
        e2.stopimpact i = if kMaxStopImpact < v then kMaxStopImpact else v) ∧
    (kMaxLocalEdgeIndex < i → i * 3 < 32 → e.set_stopimpact i v = some e) ∧
    (32 ≤ u32 (i * 3) → e.set_stopimpact i v = none) := by
  have hdlt : s_stopimpact e.stopimpact_ < 2 ^ 24 := by
    simp only [s_stopimpact]
    exact lt_of_le_of_lt Nat.and_le_right (by norm_num)
  have hd32 : s_stopimpact e.stopimpact_ < 2 ^ 32 := by omega
  refine ⟨?_, ?_, ?_⟩
  · intro hi
    have hi7 : i ≤ 7 := by simpa [kMaxLocalEdgeIndex] using hi
    have hw : i * 3 + 3 ≤ 32 := by omega
    by_cases hv : kMaxStopImpact < v
    · obtain ⟨r, hr, hr32, hb⟩ := OverwriteBits_some_testBit hd32
        (show kMaxStopImpact < 2 ^ 3 from by norm_num [kMaxStopImpact]) hw
        (by omega)
      simp only [DirectedEdge.set_stopimpact]
      rw [if_pos hv, if_pos hv, hr, Option.map_some']
      refine ⟨_, rfl, ?_⟩
      simp only [DirectedEdge.stopimpact, s_stopimpact_write]
      rw [show (0xFFFFFF : Nat) = 2 ^ 24 - 1 from by norm_num,
        Nat.and_pow_two_sub_one_eq_mod,
        show (7 : Nat) = 2 ^ 3 - 1 from by norm_num,
        Nat.and_pow_two_sub_one_eq_mod, shift_mod_bridge (by omega),
        OverwriteBits_extract hd32
          (show kMaxStopImpact < 2 ^ 3 from by norm_num [kMaxStopImpact]) hw
          (by omega) hr]
    · have hv3 : v < 2 ^ 3 := by
        simp only [kMaxStopImpact] at hv
        omega
      obtain ⟨r, hr, hr32, hb⟩ := OverwriteBits_some_testBit hd32 hv3 hw
        (by omega)
      simp only [DirectedEdge.set_stopimpact]
      rw [if_neg hv, if_neg hv, hr, Option.map_some']
      refine ⟨_, rfl, ?_⟩
      simp only [DirectedEdge.stopimpact, s_stopimpact_write]
      rw [show (0xFFFFFF : Nat) = 2 ^ 24 - 1 from by norm_num,
        Nat.and_pow_two_sub_one_eq_mod,
        show (7 : Nat) = 2 ^ 3 - 1 from by norm_num,
        Nat.and_pow_two_sub_one_eq_mod, shift_mod_bridge (by omega),
        OverwriteBits_extract hd32 hv3 hw (by omega) hr]
  · intro hi hlt32
    have hge : 24 ≤ i * 3 := by
      simp only [kMaxLocalEdgeIndex] at hi
      omega
    simp only [DirectedEdge.set_stopimpact]
    by_cases hv : kMaxStopImpact < v
    · obtain ⟨r, hr, hlow⟩ := @OverwriteBits_high_low24
        (s_stopimpact e.stopimpact_) kMaxStopImpact i hdlt hge hlt32
      have key : write_s_stopimpact e.stopimpact_ r = e.stopimpact_ := by
        simp only [write_s_stopimpact, hlow]
        simp only [s_stopimpact]
        exact hi_lo_or he
      rw [if_pos hv, hr, Option.map_some', key]
    · obtain ⟨r, hr, hlow⟩ := @OverwriteBits_high_low24
        (s_stopimpact e.stopimpact_) v i hdlt hge hlt32
      have key : write_s_stopimpact e.stopimpact_ r = e.stopimpact_ := by
        simp only [write_s_stopimpact, hlow]
        simp only [s_stopimpact]
        exact hi_lo_or he
      rw [if_neg hv, hr, Option.map_some', key]
  · intro hge32
    have hguard : ∀ src : Nat,
        OverwriteBits (s_stopimpact e.stopimpact_) src i 3 = none := by
      intro src
      simp only [OverwriteBits, u32_mul i 3]
      rw [if_pos (Or.inr hge32)]
    simp only [DirectedEdge.set_stopimpact]
    by_cases hv : kMaxStopImpact < v
    · rw [if_pos hv, hguard, Option.map_none']
    · rw [if_neg hv, hguard, Option.map_none']

/-- Claim C2 witness: a valid index with an over-the-maximum value stores
the maximum code; the out-of-range index 8 (shift 24, still defined)
leaves the record unchanged; index 11 drives the shift count to 33 and
reaches the undefined-shift error. -/
theorem C2_witness :
    ((DirectedEdge.default.set_stopimpact 3 9).map
        (fun e2 => e2.stopimpact 3) = some kMaxStopImpact) ∧
    (DirectedEdge.default.set_stopimpact 8 9 = some DirectedEdge.default) ∧
    (DirectedEdge.default.set_stopimpact 11 9 = none) := by
  refine ⟨?_, ?_, ?_⟩
  · obtain ⟨e2, he2, hval⟩ :=
      (C2_set_stopimpact DirectedEdge.default 3 9 (by decide)).1 (by decide)
    rw [he2, Option.map_some']
    rw [if_pos (by decide)] at hval
    rw [hval]
  · exact (C2_set_stopimpact DirectedEdge.default 8 9 (by decide)).2.1
      (by decide) (by decide)
  · exact (C2_set_stopimpact DirectedEdge.default 11 9 (by decide)).2.2
      (by decide)

/-- Claim C3 counterexample: the source does not mask `src` to its low
`len` bits, so with `dst = 0`, `src = 2`, `pos = 0`, `len = 1` (an
in-range, well-defined window) bit 1 of the result differs from bit 1 of
`dst`: bits outside the window are not preserved for an over-wide source
value. -/
theorem C3_counterexample :
    (0 * 1 + 1 ≤ 32) ∧
    (OverwriteBits 0 2 0 1).map (fun r => r.testBit 1) = some true ∧
    (0 : Nat).testBit 1 = false :=
  ⟨by decide, by decide, by decide⟩

/-- Claim C3 (amended): for every dst, src, pos, len with
`pos * len + len <= 32`, `len <= 31` (excluding the undefined
`(uint32_t)1 << 32` case) and - the amendment forced by the
counterexample - `src < 2 ^ len`, `OverwriteBits` succeeds and returns dst
with the len bits starting at `pos * len` replaced by the bits of src, and
every bit outside that window equal to the corresponding bit of dst; a
shift count of 32 or more is undefined in the source and is the guarded
error case of the definition, asserted nowhere here. -/
theorem C3_OverwriteBits (dst src pos len : Nat) (hd : dst < 2 ^ 32)
    (hs : src < 2 ^ len) (hw : pos * len + len ≤ 32) (hl : len ≤ 31) :
    ∃ r : Nat, OverwriteBits dst src pos len = some r ∧
      ∀ j, r.testBit j =
        if pos * len ≤ j ∧ j < pos * len + len then src.testBit (j - pos * len)
        else dst.testBit j := by
  obtain ⟨r, hr, hr32, hb⟩ := OverwriteBits_some_testBit hd hs hw hl
  exact ⟨r, hr, hb⟩

/-- Claim C3 witness: the concrete call `OverwriteBits 5 1 2 3` succeeds
with value 69, whose window bit matches the source and whose out-of-window
bit matches the destination. -/
theorem C3_witness :
    (OverwriteBits 5 1 2 3 = some 69) ∧
    Nat.testBit 69 6 = Nat.testBit 1 0 ∧
    Nat.testBit 69 0 = Nat.testBit 5 0 := by
  have heval : OverwriteBits 5 1 2 3 = some 69 := by decide
  refine ⟨heval, ?_, ?_⟩
  · obtain ⟨r, hr, hb⟩ := C3_OverwriteBits 5 1 2 3 (by norm_num) (by norm_num)
      (by norm_num) (by norm_num)
    have hr69 : r = 69 := by
      rw [heval] at hr
      exact (Option.some.inj hr).symm
    have h6 := hb 6
    rw [if_pos (by norm_num), hr69] at h6
    simpa using h6
  · obtain ⟨r, hr, hb⟩ := C3_OverwriteBits 5 1 2 3 (by norm_num) (by norm_num)
      (by norm_num) (by norm_num)
    have hr69 : r = 69 := by
      rw [heval] at hr
      exact (Option.some.inj hr).symm
    have h0 := hb 0
    rw [if_neg (by norm_num), hr69] at h0
    exact h0

/-- Decoding a stored tier-1 code (at most 16) gives the code itself. -/
theorem up_decode_eq (e : DirectedEdge) (c : Nat) (hc : c ≤ 16) :
    DirectedEdge.max_up_slope { e with max_up_slope_ := c } = (c : Int) := by
  simp only [DirectedEdge.max_up_slope]
  exact decode_code_id hc

/-- Decoding a stored tier-2 code `16 + k` gives `16 + 4 k`. -/
theorem up_decode_tier2 (e : DirectedEdge) (k : Nat) (hk : k < 16) :
    DirectedEdge.max_up_slope { e with max_up_slope_ := 16 + k }
      = 16 + (k : Int) * 4 := by
  simp only [DirectedEdge.max_up_slope]
  rw [if_neg (by rw [and16_hi hk]; norm_num), and15_eq hk]

/-- Claim C6: slope codec round trip - for an upward magnitude in [0, 16)
the decode of the encode is exactly the ceiling; in [16, 76) the decoded
value is within 4 above the magnitude and never below the tier floor 16;
at and above 76 the stored code is the maximum 0x1f, decoding to the tier
maximum 76; a wrong-sign input stores 0; and the downward codec behaves
symmetrically with the decoded result negated. -/
theorem C6_slope_codec (e : DirectedEdge) (m : ℚ) :
    (0 ≤ m → m < 16 → (e.set_max_up_slope m).max_up_slope = ⌈m⌉) ∧
    (16 ≤ m → m < 76 →
      m ≤ ((e.set_max_up_slope m).max_up_slope : ℚ) ∧
      ((e.set_max_up_slope m).max_up_slope : ℚ) ≤ m + 4 ∧
      (16 : Int) ≤ (e.set_max_up_slope m).max_up_slope) ∧
    (76 ≤ m → (e.set_max_up_slope m).max_up_slope_ = 0x1f ∧
      (e.set_max_up_slope m).max_up_slope = 76) ∧
    (m < 0 → (e.set_max_up_slope m).max_up_slope_ = 0) ∧
    (0 < m → (e.set_max_down_slope m).max_down_slope_ = 0) ∧
    ((e.set_max_down_slope m).max_down_slope
      = -((e.set_max_up_slope (-m)).max_up_slope)) := by
  have h025 : (0.25 : ℚ) = 1 / 4 := by norm_num
  refine ⟨?_, ?_, ?_, ?_, ?_, ?_⟩
  · intro h0 h16
    have hnl : ¬ m < 0 := not_lt.2 h0
    have hc0 : 0 ≤ ⌈m⌉ := Int.ceil_nonneg h0
    have hc16 : ⌈m⌉ ≤ 16 := Int.ceil_le.mpr (by push_cast; linarith)
    have hcn16 : (⌈m⌉).toNat ≤ 16 := by omega
    have hlt32 : (⌈m⌉).toNat < 2 ^ 5 := by omega
    simp only [DirectedEdge.set_max_up_slope]
    rw [if_neg hnl, if_pos h16, trunc_id hlt32, up_decode_eq e _ hcn16]
    exact Int.toNat_of_nonneg hc0
  · intro h16 h76
    have hnl : ¬ m < 0 := by linarith
    have hn16 : ¬ m < 16 := not_lt.2 h16
    have hq0 : (0 : ℚ) ≤ (m - 16) * 0.25 := by
      rw [h025]
      apply mul_nonneg (by linarith) (by norm_num)
    have hk0 : 0 ≤ ⌈(m - 16) * 0.25⌉ := Int.ceil_nonneg hq0
    have hk15 : ⌈(m - 16) * 0.25⌉ ≤ 15 := by
      apply Int.ceil_le.mpr
      rw [h025]
      push_cast
      linarith
    have hkn : (⌈(m - 16) * 0.25⌉).toNat ≤ 15 := by omega
    have hlt32 : 16 ||| (⌈(m - 16) * 0.25⌉).toNat < 2 ^ 5 := by
      rw [or16_eq (by omega)]
      omega
    have hdec : (e.set_max_up_slope m).max_up_slope
        = 16 + (((⌈(m - 16) * 0.25⌉).toNat : Nat) : Int) * 4 := by
      simp only [DirectedEdge.set_max_up_slope]
      rw [if_neg hnl, if_neg hn16, if_pos h76, trunc_id hlt32,
        or16_eq (by omega)]
      exact up_decode_tier2 e _ (by omega)
    have htn : (((⌈(m - 16) * 0.25⌉).toNat : Nat) : Int)
        = ⌈(m - 16) * 0.25⌉ := Int.toNat_of_nonneg hk0
    have hknq : ((((⌈(m - 16) * 0.25⌉).toNat : Nat)) : ℚ)
        = ((⌈(m - 16) * 0.25⌉ : Int) : ℚ) := by
      exact_mod_cast congrArg (fun z : Int => (z : ℚ)) htn
    have hle : ((m - 16) * 0.25 : ℚ) ≤ ((⌈(m - 16) * 0.25⌉ : Int) : ℚ) :=
      Int.le_ceil _
    have hlt1 : ((⌈(m - 16) * 0.25⌉ : Int) : ℚ) < (m - 16) * 0.25 + 1 :=
      Int.ceil_lt_add_one _
    rw [h025] at hle hlt1
    refine ⟨?_, ?_, ?_⟩
    · rw [hdec]
      push_cast
      rw [hknq]
      linarith
    · rw [hdec]
      push_cast
      rw [hknq]
      linarith
    · rw [hdec]
      have h4 : (0 : Int) ≤ (((⌈(m - 16) * 0.25⌉).toNat : Nat) : Int) * 4 := by
        positivity
      omega
  · intro h76
    have hnl : ¬ m < 0 := by linarith
    have hn16 : ¬ m < 16 := by push_neg; linarith
    have hn76 : ¬ m < 76 := not_lt.2 h76
    constructor
    · simp only [DirectedEdge.set_max_up_slope]
      rw [if_neg hnl, if_neg hn16, if_neg hn76]
    · simp only [DirectedEdge.set_max_up_slope]
      rw [if_neg hnl, if_neg hn16, if_neg hn76]
      simp only [DirectedEdge.max_up_slope]
      decide
  · intro h
    simp only [DirectedEdge.set_max_up_slope]
    rw [if_pos h]
  · intro h
    simp only [DirectedEdge.set_max_down_slope]
    rw [if_pos h]
  · have hfield : (e.set_max_down_slope m).max_down_slope_
        = (e.set_max_up_slope (-m)).max_up_slope_ := by
      simp only [DirectedEdge.set_max_down_slope, DirectedEdge.set_max_up_slope]
      split_ifs <;> first
        | rfl
        | (exfalso; linarith)
    have hdown : e.set_max_down_slope m
        = { e with max_down_slope_ := (e.set_max_down_slope m).max_down_slope_ } := by
      simp only [DirectedEdge.set_max_down_slope]
      split_ifs <;> rfl
    have hup : e.set_max_up_slope (-m)
        = { e with max_up_slope_ := (e.set_max_up_slope (-m)).max_up_slope_ } := by
      simp only [DirectedEdge.set_max_up_slope]
      split_ifs <;> rfl
    rw [hdown, hup, hfield]
    exact down_neg_up e _

/-- Claim C6 witness: tier-1 magnitude 5 decodes back to its ceiling 5, and
magnitude 80 stores the maximum code. -/
theorem C6_witness :
    (DirectedEdge.default.set_max_up_slope 5).max_up_slope = 5 ∧
    (DirectedEdge.default.set_max_up_slope 80).max_up_slope_ = 0x1f := by
  constructor
  · have h := (C6_slope_codec DirectedEdge.default 5).1 (by norm_num)
      (by norm_num)
    rw [h]
    norm_num
  · exact ((C6_slope_codec DirectedEdge.default 80).2.2.1 (by norm_num)).1

/-- Claim C10: the structured export projection contains no entry for the
opposing-edge index, the raw edge-info storage offset, the raw restrictions
mask, or the reverse access mask - indeed its output does not depend on
those four fields at all - while it does contain the curated included
fields: speed, the forward access projection, the geo_attributes
sub-document with the weighted grade normalized as `(stored - 6) / 0.6`,
and the classification sub-document. -/
theorem C10_json_projection (e : DirectedEdge) (x y z w : Nat) :
    DirectedEdge.json
      { e with
        opp_index_ := x
        edgeinfo_offset_ := y
        restrictions_ := z
        reverseaccess_ := w } = DirectedEdge.json e ∧
    ("opp_index") ∉ jsonKeys e ∧
    ("edge_info_offset") ∉ jsonKeys e ∧
    ("restrictions") ∉ jsonKeys e ∧
    ("speed") ∈ jsonKeys e ∧
    ("access") ∈ jsonKeys e ∧
    ("geo_attributes") ∈ jsonKeys e ∧
    ("classification") ∈ jsonKeys e ∧
    List.lookup ("access") (topEntries (DirectedEdge.json e))
      = some (access_json e.forwardaccess_) ∧
    List.lookup ("geo_attributes") (topEntries (DirectedEdge.json e))
      = some (JsonVal.jmap [
          (("length"), JsonVal.jn e.length_),
          (("weighted_grade"),
            JsonVal.jfp (((e.weighted_grade_ : ℚ) - 6) / 0.6) 2)]) := by
  have hkeys : jsonKeys e = [("end_node"), ("speed"), ("access_restriction"),
      ("start_restriction"), ("end_restriction"),
      ("part_of_complex_restriction"), ("has_exit_sign"), ("drive_on_right"),
      ("toll"), ("seasonal"), ("destination_only"), ("tunnel"), ("bridge"),
      ("round_about"), ("unreachable"), ("traffic_signal"), ("forward"),
      ("not_thru"), ("cycle_lane"), ("bike_network"), ("truck_route"),
      ("lane_count"), ("use"), ("speed_type"), ("country_crossing"),
      ("geo_attributes"), ("access"), ("classification")] := rfl
  refine ⟨rfl, ?_, ?_, ?_, ?_, ?_, ?_, ?_, rfl, rfl⟩ <;> rw [hkeys] <;> decide
